import Mathlib

/-!
Shallow embedding of the Fastly purge client
(vendor/github.com/fastly/go-fastly/fastly/purge.go) and of the
HTTPS-logging reconciliation code of the terraform provider, together
with theorems checking the claims of the specification about them.
-/

/-- Modelled from the spec: the error kinds of the API client (spec §7):
missing-required-field sentinel errors (ErrMissingURL, ErrMissingService,
ErrMissingKey), HTTP status errors carried by the HTTPError type of the client,
and other transport or decode failures. The concrete Go declarations live
in the vendored API client outside this repository. -/
inductive FastlyError where
  | missingURL
  | missingService
  | missingKey
  | httpError (statusCode : Nat)
  | otherError (msg : String)
deriving DecidableEq

/-- Purge is a response from a purge request (purge.go). -/
structure Purge where
  Status : String
  ID : String
deriving DecidableEq

/-- PurgeInput is used as input to the Purge function (purge.go). -/
structure PurgeInput where
  URL : String
  Soft : Bool

/-- PurgeKeyInput is used as input to the PurgeKey function (purge.go). -/
structure PurgeKeyInput where
  Service : String
  Key : String
  Soft : Bool

/-- PurgeAllInput is used as input to the PurgeAll function (purge.go). -/
structure PurgeAllInput where
  Service : String
  Soft : Bool

/-- Modelled from the spec: an HTTP request as assembled by the client —
method, path and headers (spec §6). The request-construction helpers of
the API client (RequestOptions, RawRequest, Header.Set) are declared
outside this repository. -/
structure HTTPRequest where
  method : String
  path : String
  headers : List (String × String)
deriving DecidableEq

/-- Modelled from the spec: setting a header replaces any previous value
of that key and stores the new one. -/
def headerSet (hs : List (String × String)) (k v : String) : List (String × String) :=
  (k, v) :: hs.filter (fun p => decide (p.1 ≠ k))

/-- The request assembled by Client.Purge: a POST to purge/ followed by
the URL, with the
Fastly-Soft-Purge header stored in the request options exactly when Soft
is set (purge.go, Purge). -/
def purgeRequest (i : PurgeInput) : HTTPRequest :=
  { method := "POST", path := "purge/" ++ i.URL,
    headers := if i.Soft then headerSet [] "Fastly-Soft-Purge" "1" else [] }

/-- Sets the Fastly-Soft-Purge header on an already built request exactly
when the soft flag is set (purge.go, PurgeKey and PurgeAll). -/
def setSoft (soft : Bool) (req : HTTPRequest) : HTTPRequest :=
  if soft then { req with headers := headerSet req.headers "Fastly-Soft-Purge" "1" }
  else req

/-- The request assembled by Client.PurgeKey: a POST to
/service/ service /purge/ key (purge.go, PurgeKey). -/
def purgeKeyRequest (i : PurgeKeyInput) : HTTPRequest :=
  setSoft i.Soft
    { method := "POST", path := "/service/" ++ i.Service ++ "/purge/" ++ i.Key, headers := [] }

/-- The request assembled by Client.PurgeAll: a POST to
/service/ service /purge_all (purge.go, PurgeAll). -/
def purgeAllRequest (i : PurgeAllInput) : HTTPRequest :=
  setSoft i.Soft
    { method := "POST", path := "/service/" ++ i.Service ++ "/purge_all", headers := [] }

/-- The transport oracle covering the HTTP round trip and JSON decoding
of a purge call, which live in the API client outside this repository. -/
abbrev PurgeTransport := HTTPRequest → Except FastlyError Purge

/-- Result of a purge call paired with the list of requests put on the
wire by that call. -/
abbrev PurgeOutcome := Except FastlyError Purge × List HTTPRequest

/-- Client.Purge (purge.go): an empty URL fails with ErrMissingURL before
any request is issued; otherwise the single purge request is sent through
the transport and the decoded result returned. The second component of
the result is the list of requests put on the wire. -/
def Client.Purge (i : PurgeInput) (transport : PurgeTransport) : PurgeOutcome :=
  if i.URL = "" then (Except.error FastlyError.missingURL, [])
  else (transport (purgeRequest i), [purgeRequest i])

/-- Client.PurgeKey (purge.go): an empty Service fails with
ErrMissingService, then an empty Key fails with ErrMissingKey, both before
any request is issued; otherwise the single request is sent. -/
def Client.PurgeKey (i : PurgeKeyInput) (transport : PurgeTransport) : PurgeOutcome :=
  if i.Service = "" then (Except.error FastlyError.missingService, [])
  else if i.Key = "" then (Except.error FastlyError.missingKey, [])
  else (transport (purgeKeyRequest i), [purgeKeyRequest i])

/-- Client.PurgeAll (purge.go): an empty Service fails with
ErrMissingService before any request is issued; otherwise the single
request is sent. -/
def Client.PurgeAll (i : PurgeAllInput) (transport : PurgeTransport) : PurgeOutcome :=
  if i.Service = "" then (Except.error FastlyError.missingService, [])
  else (transport (purgeAllRequest i), [purgeAllRequest i])

/-- A transport oracle that always succeeds, used to instantiate the
purge-client theorems at concrete inputs. -/
def okTransport : PurgeTransport :=
  fun _ => Except.ok { Status := "ok", ID := "id" }

/-- C1: for every purge operation whose required fields are present, the
single issued request carries the header Fastly-Soft-Purge with value 1
exactly when the Soft flag is true, and carries no such header when the
flag is false. -/
theorem purge_soft_header_iff (t : PurgeTransport)
    (i1 : PurgeInput) (i2 : PurgeKeyInput) (i3 : PurgeAllInput) :
    (i1.URL ≠ "" → ∃ req, (Client.Purge i1 t).2 = [req] ∧
        req.headers.lookup "Fastly-Soft-Purge" = (if i1.Soft then some "1" else none))
    ∧ (i2.Service ≠ "" → i2.Key ≠ "" → ∃ req, (Client.PurgeKey i2 t).2 = [req] ∧
        req.headers.lookup "Fastly-Soft-Purge" = (if i2.Soft then some "1" else none))
    ∧ (i3.Service ≠ "" → ∃ req, (Client.PurgeAll i3 t).2 = [req] ∧
        req.headers.lookup "Fastly-Soft-Purge" = (if i3.Soft then some "1" else none)) := by
  refine ⟨fun h1 => ?_, fun h1 h2 => ?_, fun h1 => ?_⟩
  · refine ⟨purgeRequest i1, ?_, ?_⟩
    · simp [Client.Purge, h1]
    · cases hs : i1.Soft <;> simp [purgeRequest, hs, headerSet, List.lookup]
  · refine ⟨purgeKeyRequest i2, ?_, ?_⟩
    · simp [Client.PurgeKey, h1, h2]
    · cases hs : i2.Soft <;> simp [purgeKeyRequest, setSoft, hs, headerSet, List.lookup]
  · refine ⟨purgeAllRequest i3, ?_, ?_⟩
    · simp [Client.PurgeAll, h1]
    · cases hs : i3.Soft <;> simp [purgeAllRequest, setSoft, hs, headerSet, List.lookup]

/-- Witness for C1 at concrete inputs: a soft single-URL purge carries the
header, a non-soft key purge does not, a soft purge-all carries it. -/
theorem purge_soft_header_iff_witness :
    (∃ req, (Client.Purge { URL := "u", Soft := true } okTransport).2 = [req] ∧
        req.headers.lookup "Fastly-Soft-Purge" = some "1")
    ∧ (∃ req, (Client.PurgeKey { Service := "s", Key := "k", Soft := false } okTransport).2
          = [req] ∧ req.headers.lookup "Fastly-Soft-Purge" = none)
    ∧ (∃ req, (Client.PurgeAll { Service := "s", Soft := true } okTransport).2 = [req] ∧
        req.headers.lookup "Fastly-Soft-Purge" = some "1") :=
  ⟨(purge_soft_header_iff okTransport { URL := "u", Soft := true }
      { Service := "s", Key := "k", Soft := false } { Service := "s", Soft := true }).1
      (by decide),
   (purge_soft_header_iff okTransport { URL := "u", Soft := true }
      { Service := "s", Key := "k", Soft := false } { Service := "s", Soft := true }).2.1
      (by decide) (by decide),
   (purge_soft_header_iff okTransport { URL := "u", Soft := true }
      { Service := "s", Key := "k", Soft := false } { Service := "s", Soft := true }).2.2
      (by decide)⟩

/-- C6: every purge operation with an empty required field — empty URL for
Purge, empty Service or empty Key for PurgeKey, empty Service for
PurgeAll — returns the matching missing-field error and issues no network
request at all. -/
theorem purge_missing_required_fields (t : PurgeTransport)
    (i1 : PurgeInput) (i2 : PurgeKeyInput) (i3 : PurgeAllInput) :
    (i1.URL = "" → Client.Purge i1 t = (Except.error FastlyError.missingURL, []))
    ∧ (i2.Service = "" → Client.PurgeKey i2 t = (Except.error FastlyError.missingService, []))
    ∧ (i2.Service ≠ "" → i2.Key = "" →
        Client.PurgeKey i2 t = (Except.error FastlyError.missingKey, []))
    ∧ (i3.Service = "" → Client.PurgeAll i3 t = (Except.error FastlyError.missingService, [])) := by
  refine ⟨fun h1 => ?_, fun h1 => ?_, fun h1 h2 => ?_, fun h1 => ?_⟩
  · simp [Client.Purge, h1]
  · simp [Client.PurgeKey, h1]
  · simp [Client.PurgeKey, h1, h2]
  · simp [Client.PurgeAll, h1]

/-- Witness for C6 at concrete inputs. -/
theorem purge_missing_required_fields_witness :
    Client.Purge { URL := "", Soft := false } okTransport
      = (Except.error FastlyError.missingURL, [])
    ∧ Client.PurgeKey { Service := "", Key := "k", Soft := false } okTransport
      = (Except.error FastlyError.missingService, [])
    ∧ Client.PurgeKey { Service := "s", Key := "", Soft := false } okTransport
      = (Except.error FastlyError.missingKey, [])
    ∧ Client.PurgeAll { Service := "", Soft := false } okTransport
      = (Except.error FastlyError.missingService, []) :=
  ⟨(purge_missing_required_fields okTransport { URL := "", Soft := false }
      { Service := "", Key := "k", Soft := false } { Service := "", Soft := false }).1 rfl,
   (purge_missing_required_fields okTransport { URL := "", Soft := false }
      { Service := "", Key := "k", Soft := false } { Service := "", Soft := false }).2.1 rfl,
   (purge_missing_required_fields okTransport { URL := "", Soft := false }
      { Service := "s", Key := "", Soft := false } { Service := "", Soft := false }).2.2.1
      (by decide) rfl,
   (purge_missing_required_fields okTransport { URL := "", Soft := false }
      { Service := "", Key := "k", Soft := false } { Service := "", Soft := false }).2.2.2 rfl⟩

/-- A Go dynamic value as stored in the terraform configuration maps:
an interface value holding either a string, an int, or a uint. -/
inductive GoValue where
  | str (s : String)
  | int (n : Int)
  | uint (n : Nat)
deriving DecidableEq

/-- A flat configuration mapping of field name to dynamic value, the
shape of one httpslogging block (a Go map of string to interface value). -/
abbrev FlatMap := List (String × GoValue)

/-- The Go type assertion value.(string) on a map lookup: succeeds only
when the key is present and its dynamic type is string; any other case is
a runtime panic, modelled as none. -/
def getString (m : FlatMap) (k : String) : Option String :=
  match m.lookup k with
  | some (GoValue.str s) => some s
  | _ => none

/-- The Go type assertion value.(int) on a map lookup: succeeds only when
the key is present and its dynamic type is int; any other case is a
runtime panic, modelled as none. -/
def getInt (m : FlatMap) (k : String) : Option Int :=
  match m.lookup k with
  | some (GoValue.int n) => some n
  | _ => none

/-- The Go conversion uint(x) from a (64-bit) signed int to uint: the
value reduced modulo 2^64, always non-negative. -/
def goUint (n : Int) : Nat :=
  (n % 18446744073709551616).toNat

/-- Modelled from the spec: the create-input record of the logging API
(gofastly.CreateHTTPSInput, declared in the vendored client outside this
repository), with the unsigned numeric fields the API expects (spec §4.2
step 4) and the field set read by buildCreateHTTPS. -/
structure CreateHTTPSInput where
  Service : String
  Version : Int
  Name : String
  URL : String
  RequestMaxEntries : Nat
  RequestMaxBytes : Nat
  ContentType : String
  HeaderName : String
  HeaderValue : String
  Method : String
  JSONFormat : String
  TLSCACert : String
  TLSClientCert : String
  TLSClientKey : String
  TLSHostname : String
  Format : String
  FormatVersion : Nat
  MessageType : String
  Placement : String
  ResponseCondition : String
deriving DecidableEq

/-- Modelled from the spec: the delete-input record of the logging API
(gofastly.DeleteHTTPSInput, declared outside this repository): the
(service, version, name) scope of one delete (spec §4.2 step 3). -/
structure DeleteHTTPSInput where
  Service : String
  Version : Int
  Name : String
deriving DecidableEq

/-- buildCreateHTTPS (https logging resource file): reads every field of
the configuration map with a type assertion and builds the create input;
the numeric fields are converted with uint(...). A missing key or a value
of the wrong dynamic type is a runtime panic, modelled as none. -/
def buildCreateHTTPS (httpsMap : FlatMap) (serviceID : String) (serviceVersion : Int) :
    Option CreateHTTPSInput :=
  match getString httpsMap "name" with
  | none => none
  | some name =>
  match getString httpsMap "url" with
  | none => none
  | some url =>
  match getInt httpsMap "request_max_entries" with
  | none => none
  | some requestMaxEntries =>
  match getInt httpsMap "request_max_bytes" with
  | none => none
  | some requestMaxBytes =>
  match getString httpsMap "content_type" with
  | none => none
  | some contentType =>
  match getString httpsMap "header_name" with
  | none => none
  | some headerName =>
  match getString httpsMap "header_value" with
  | none => none
  | some headerValue =>
  match getString httpsMap "method" with
  | none => none
  | some methodVal =>
  match getString httpsMap "json_format" with
  | none => none
  | some jsonFormat =>
  match getString httpsMap "tls_ca_cert" with
  | none => none
  | some tlsCACert =>
  match getString httpsMap "tls_client_cert" with
  | none => none
  | some tlsClientCert =>
  match getString httpsMap "tls_client_key" with
  | none => none
  | some tlsClientKey =>
  match getString httpsMap "tls_hostname" with
  | none => none
  | some tlsHostname =>
  match getString httpsMap "format" with
  | none => none
  | some format =>
  match getInt httpsMap "format_version" with
  | none => none
  | some formatVersion =>
  match getString httpsMap "message_type" with
  | none => none
  | some messageType =>
  match getString httpsMap "placement" with
  | none => none
  | some placement =>
  match getString httpsMap "response_condition" with
  | none => none
  | some responseCondition =>
  some
    { Service := serviceID
      Version := serviceVersion
      Name := name
      URL := url
      RequestMaxEntries := goUint requestMaxEntries
      RequestMaxBytes := goUint requestMaxBytes
      ContentType := contentType
      HeaderName := headerName
      HeaderValue := headerValue
      Method := methodVal
      JSONFormat := jsonFormat
      TLSCACert := tlsCACert
      TLSClientCert := tlsClientCert
      TLSClientKey := tlsClientKey
      TLSHostname := tlsHostname
      Format := format
      FormatVersion := goUint formatVersion
      MessageType := messageType
      Placement := placement
      ResponseCondition := responseCondition }

/-- buildDeleteHTTPS (https logging resource file): reads the name field
of the configuration map with a type assertion and builds the delete
input; a missing or non-string name is a runtime panic, modelled as
none. -/
def buildDeleteHTTPS (httpsMap : FlatMap) (serviceID : String) (serviceVersion : Int) :
    Option DeleteHTTPSInput :=
  match getString httpsMap "name" with
  | none => none
  | some name => some { Service := serviceID, Version := serviceVersion, Name := name }

/-- deleteHTTPS (https logging resource file), as a function of the error
returned by the underlying DeleteHTTPS API call: an HTTPError whose
status code is 404 is suppressed; any other error is returned. -/
def deleteHTTPS (res : Option FastlyError) : Option FastlyError :=
  match res with
  | some (FastlyError.httpError code) =>
      if code ≠ 404 then some (FastlyError.httpError code) else none
  | some e => some e
  | none => none

/-- createHTTPS (https logging resource file), as a function of the error
returned by the underlying CreateHTTPS API call: every error is returned
unchanged. -/
def createHTTPS (res : Option FastlyError) : Option FastlyError :=
  match res with
  | some e => some e
  | none => none

/-- One API call issued by the reconciler: a delete or a create of an
HTTPS logging endpoint. No other call shape exists in the code. -/
inductive APICall where
  | deleteCall (opts : DeleteHTTPSInput)
  | createCall (opts : CreateHTTPSInput)
deriving DecidableEq

/-- How one reconciler invocation ends: normally, with the first API
error, or in a runtime panic from a type assertion. -/
inductive RunOutcome where
  | ok
  | apiError (e : FastlyError)
  | panicked
deriving DecidableEq

/-- The DELETE loop of processHTTPS: for each removed entry, build the
delete input and call deleteHTTPS; the first error aborts the loop. The
result pairs the API calls issued with the outcome. The oracle delRes
gives the error returned by each underlying DeleteHTTPS call. -/
def runDeletes (serviceID : String) (latestVersion : Int)
    (delRes : DeleteHTTPSInput → Option FastlyError) :
    List FlatMap → List APICall × RunOutcome
  | [] => ([], RunOutcome.ok)
  | of :: rest =>
    match buildDeleteHTTPS of serviceID latestVersion with
    | none => ([], RunOutcome.panicked)
    | some opts =>
      match deleteHTTPS (delRes opts) with
      | some e => ([APICall.deleteCall opts], RunOutcome.apiError e)
      | none =>
        let r := runDeletes serviceID latestVersion delRes rest
        (APICall.deleteCall opts :: r.1, r.2)

/-- The POST loop of processHTTPS: for each added entry, build the create
input and call createHTTPS; the first error aborts the loop. The oracle
createRes gives the error returned by each underlying CreateHTTPS call. -/
def runCreates (serviceID : String) (latestVersion : Int)
    (createRes : CreateHTTPSInput → Option FastlyError) :
    List FlatMap → List APICall × RunOutcome
  | [] => ([], RunOutcome.ok)
  | nf :: rest =>
    match buildCreateHTTPS nf serviceID latestVersion with
    | none => ([], RunOutcome.panicked)
    | some opts =>
      match createHTTPS (createRes opts) with
      | some e => ([APICall.createCall opts], RunOutcome.apiError e)
      | none =>
        let r := runCreates serviceID latestVersion createRes rest
        (APICall.createCall opts :: r.1, r.2)

/-- Modelled from the spec: the Difference operation of the configuration
set abstraction (schema.Set, declared in the terraform SDK outside this
repository): the entries of the first set that are not in the second, by
whole-entry equality (spec §4.2 step 2). -/
def goSetDifference (a b : List FlatMap) : List FlatMap :=
  a.filter (fun x => decide (x ∉ b))

/-- The removal list of processHTTPS: the old set minus the new set,
treating an absent set as empty. -/
def removeHTTPSLogging (oh nh : Option (List FlatMap)) : List FlatMap :=
  goSetDifference (oh.getD []) (nh.getD [])

/-- The addition list of processHTTPS: the new set minus the old set,
treating an absent set as empty. -/
def addHTTPSLogging (oh nh : Option (List FlatMap)) : List FlatMap :=
  goSetDifference (nh.getD []) (oh.getD [])

/-- processHTTPS (https logging resource file): treat absent old or new
sets as empty, diff them in both directions by whole-entry equality,
delete every removed entry, then create every added entry; the first
error aborts the invocation. -/
def processHTTPS (serviceID : String) (latestVersion : Int)
    (oh nh : Option (List FlatMap))
    (delRes : DeleteHTTPSInput → Option FastlyError)
    (createRes : CreateHTTPSInput → Option FastlyError) :
    List APICall × RunOutcome :=
  match runDeletes serviceID latestVersion delRes (removeHTTPSLogging oh nh) with
  | (dcalls, RunOutcome.ok) =>
    let r := runCreates serviceID latestVersion createRes (addHTTPSLogging oh nh)
    (dcalls ++ r.1, r.2)
  | (dcalls, out) => (dcalls, out)

/-- Modelled from the spec: one server-side HTTPS logging record as
returned by the list call (gofastly.HTTPS, declared in the vendored
client outside this repository): the string fields and the unsigned
numeric batching and format-version fields read by flattenHTTPS
(spec §3, §4.2 step 6). -/
structure HTTPS where
  Name : String
  ResponseCondition : String
  Format : String
  URL : String
  RequestMaxEntries : Nat
  RequestMaxBytes : Nat
  ContentType : String
  HeaderName : String
  HeaderValue : String
  Method : String
  JSONFormat : String
  Placement : String
  TLSCACert : String
  TLSClientCert : String
  TLSClientKey : String
  TLSHostname : String
  MessageType : String
  FormatVersion : Nat
deriving DecidableEq

/-- The map built by flattenHTTPS for one record, before pruning: every
field of the record under its configuration key, strings as string
values and unsigned numbers as uint values. -/
def flattenHTTPSBase (hl : HTTPS) : FlatMap :=
  [("name", GoValue.str hl.Name),
   ("response_condition", GoValue.str hl.ResponseCondition),
   ("format", GoValue.str hl.Format),
   ("url", GoValue.str hl.URL),
   ("request_max_entries", GoValue.uint hl.RequestMaxEntries),
   ("request_max_bytes", GoValue.uint hl.RequestMaxBytes),
   ("content_type", GoValue.str hl.ContentType),
   ("header_name", GoValue.str hl.HeaderName),
   ("header_value", GoValue.str hl.HeaderValue),
   ("method", GoValue.str hl.Method),
   ("json_format", GoValue.str hl.JSONFormat),
   ("placement", GoValue.str hl.Placement),
   ("tls_ca_cert", GoValue.str hl.TLSCACert),
   ("tls_client_cert", GoValue.str hl.TLSClientCert),
   ("tls_client_key", GoValue.str hl.TLSClientKey),
   ("tls_hostname", GoValue.str hl.TLSHostname),
   ("message_type", GoValue.str hl.MessageType),
   ("format_version", GoValue.uint hl.FormatVersion)]

/-- The pruning pass of flattenHTTPS: delete every key whose interface
value compares equal to the empty string (the Go comparison v == ""
holds only for a string-typed value equal to the empty string). -/
def flattenHTTPSEntry (hl : HTTPS) : FlatMap :=
  (flattenHTTPSBase hl).filter (fun kv => decide (kv.2 ≠ GoValue.str ""))

/-- flattenHTTPS (https logging resource file): convert each server-side
record to a map for saving to state and prune empty values. -/
def flattenHTTPS (httpsList : List HTTPS) : List FlatMap :=
  httpsList.map flattenHTTPSEntry

/-- A fully well-typed configuration map for one httpslogging block,
used to instantiate the reconciler theorems at concrete inputs. -/
def exampleEntry (name url : String) : FlatMap :=
  [("name", GoValue.str name),
   ("url", GoValue.str url),
   ("request_max_entries", GoValue.int 0),
   ("request_max_bytes", GoValue.int 0),
   ("content_type", GoValue.str ""),
   ("header_name", GoValue.str ""),
   ("header_value", GoValue.str ""),
   ("method", GoValue.str "POST"),
   ("json_format", GoValue.str "0"),
   ("tls_ca_cert", GoValue.str ""),
   ("tls_client_cert", GoValue.str ""),
   ("tls_client_key", GoValue.str ""),
   ("tls_hostname", GoValue.str ""),
   ("format", GoValue.str ""),
   ("format_version", GoValue.int 2),
   ("message_type", GoValue.str "blank"),
   ("placement", GoValue.str ""),
   ("response_condition", GoValue.str "")]

/-- The create input that buildCreateHTTPS produces from
exampleEntry name url with service svc at version 1. -/
def exampleCreateOpts (name url : String) : CreateHTTPSInput :=
  { Service := "svc"
    Version := 1
    Name := name
    URL := url
    RequestMaxEntries := 0
    RequestMaxBytes := 0
    ContentType := ""
    HeaderName := ""
    HeaderValue := ""
    Method := "POST"
    JSONFormat := "0"
    TLSCACert := ""
    TLSClientCert := ""
    TLSClientKey := ""
    TLSHostname := ""
    Format := ""
    FormatVersion := 2
    MessageType := "blank"
    Placement := ""
    ResponseCondition := "" }

/-- A lookup that succeeds finds its key-value pair in the list. -/
theorem lookup_some_mem {l : FlatMap} {k : String} {v : GoValue}
    (h : l.lookup k = some v) : (k, v) ∈ l := by
  induction l with
  | nil => simp [List.lookup] at h
  | cons a t ih =>
    obtain ⟨ka, va⟩ := a
    by_cases hk : k = ka
    · subst hk
      simp [List.lookup] at h
      simp [h]
    · have hb : (k == ka) = false := by simp [hk]
      simp [List.lookup, hb] at h
      exact List.mem_cons_of_mem _ (ih h)

/-- A key that is absent from the key column is not found by lookup. -/
theorem lookup_eq_none_of_not_mem_keys {l : FlatMap} {k : String}
    (h : k ∉ l.map Prod.fst) : l.lookup k = none := by
  induction l with
  | nil => rfl
  | cons a t ih =>
    obtain ⟨ka, va⟩ := a
    simp only [List.map_cons, List.mem_cons] at h
    push_neg at h
    have hb : (k == ka) = false := by simp [h.1]
    simp [List.lookup, hb, ih h.2]

/-- On a map with pairwise distinct keys, looking a key up after a filter
finds the original value exactly when the filter keeps its pair. -/
theorem lookup_filter (p : String × GoValue → Bool) (l : FlatMap) (k : String)
    (hnd : (l.map Prod.fst).Nodup) :
    (l.filter p).lookup k
      = (l.lookup k).bind (fun v => if p (k, v) then some v else none) := by
  induction l with
  | nil => rfl
  | cons a t ih =>
    obtain ⟨ka, va⟩ := a
    simp only [List.map_cons, List.nodup_cons] at hnd
    by_cases hk : k = ka
    · subst hk
      by_cases hp : p (k, va)
      · simp [List.filter, hp, List.lookup]
      · have hnone : (t.filter p).lookup k = none := by
          apply lookup_eq_none_of_not_mem_keys
          intro hmem
          exact hnd.1 (((List.filter_sublist t).map Prod.fst).subset hmem)
        simp [List.filter, hp, List.lookup, hnone]
    · have hb : (k == ka) = false := by simp [hk]
      by_cases hp : p (ka, va)
      · simp [List.filter, hp, List.lookup, hb, ih hnd.2]
      · simp [List.filter, hp, List.lookup, hb, ih hnd.2]

/-- The eighteen keys written by flattenHTTPS are pairwise distinct. -/
theorem flattenHTTPSBase_keys_nodup (hl : HTTPS) :
    ((flattenHTTPSBase hl).map Prod.fst).Nodup := by
  have h : (flattenHTTPSBase hl).map Prod.fst
      = ["name", "response_condition", "format", "url", "request_max_entries",
         "request_max_bytes", "content_type", "header_name", "header_value", "method",
         "json_format", "placement", "tls_ca_cert", "tls_client_cert", "tls_client_key",
         "tls_hostname", "message_type", "format_version"] := rfl
  rw [h]
  decide

/-- C2 counterexample: a record whose request_max_entries holds the zero
value of its numeric type is flattened to a map that still contains the
request_max_entries key; the pruning pass removes only values that
compare equal to the empty string, never numeric zeroes. -/
theorem flattenHTTPS_keeps_zero_numeric :
    (flattenHTTPSEntry
      ⟨"n", "x", "x", "https://x", 0, 1, "x", "x", "x", "POST", "0", "x", "x", "x", "x",
       "x", "blank", 2⟩).lookup "request_max_entries" = some (GoValue.uint 0) := by
  decide

/-- C2 (amended): for every server-side record, flattening omits exactly
the fields whose value is the empty string: looking any key up in the
stored map finds the value of the unpruned map unless that value is the
empty string, in which case the key is absent. In particular the
content_type key is absent exactly when the content_type of the record
is the empty string, and the three numeric fields are always retained,
even when their value is zero. -/
theorem flattenHTTPS_prunes_empty_strings (hl : HTTPS) :
    (∀ k, (flattenHTTPSEntry hl).lookup k
        = ((flattenHTTPSBase hl).lookup k).bind
            (fun v => if v = GoValue.str "" then none else some v))
    ∧ ((flattenHTTPSEntry hl).lookup "content_type" = none ↔ hl.ContentType = "")
    ∧ (flattenHTTPSEntry hl).lookup "request_max_entries"
        = some (GoValue.uint hl.RequestMaxEntries)
    ∧ (flattenHTTPSEntry hl).lookup "request_max_bytes"
        = some (GoValue.uint hl.RequestMaxBytes)
    ∧ (flattenHTTPSEntry hl).lookup "format_version"
        = some (GoValue.uint hl.FormatVersion) := by
  have hmain : ∀ k, (flattenHTTPSEntry hl).lookup k
      = ((flattenHTTPSBase hl).lookup k).bind
          (fun v => if v = GoValue.str "" then none else some v) := by
    intro k
    simp only [flattenHTTPSEntry]
    rw [lookup_filter _ _ _ (flattenHTTPSBase_keys_nodup hl)]
    cases h : (flattenHTTPSBase hl).lookup k with
    | none => rfl
    | some v =>
      by_cases hv : v = GoValue.str ""
      · simp [hv]
      · simp [hv]
  refine ⟨hmain, ?_, ?_, ?_, ?_⟩
  · have hbase : (flattenHTTPSBase hl).lookup "content_type"
        = some (GoValue.str hl.ContentType) := rfl
    rw [hmain "content_type", hbase]
    by_cases h : hl.ContentType = "" <;> simp [h]
  · have hbase : (flattenHTTPSBase hl).lookup "request_max_entries"
        = some (GoValue.uint hl.RequestMaxEntries) := rfl
    rw [hmain "request_max_entries", hbase]
    simp
  · have hbase : (flattenHTTPSBase hl).lookup "request_max_bytes"
        = some (GoValue.uint hl.RequestMaxBytes) := rfl
    rw [hmain "request_max_bytes", hbase]
    simp
  · have hbase : (flattenHTTPSBase hl).lookup "format_version"
        = some (GoValue.uint hl.FormatVersion) := rfl
    rw [hmain "format_version", hbase]
    simp

/-- Witness for C2 (amended) at a concrete record with empty
content_type and zero request_max_entries: the content_type key is
pruned, the zero numeric is retained with its value, and a nonempty
string field is retained with its value. -/
theorem flattenHTTPS_prunes_empty_strings_witness :
    (flattenHTTPSEntry
      ⟨"n", "x", "x", "https://x", 0, 1, "", "x", "x", "POST", "0", "x", "x", "x", "x",
       "x", "blank", 2⟩).lookup "content_type" = none
    ∧ (flattenHTTPSEntry
      ⟨"n", "x", "x", "https://x", 0, 1, "", "x", "x", "POST", "0", "x", "x", "x", "x",
       "x", "blank", 2⟩).lookup "request_max_entries" = some (GoValue.uint 0)
    ∧ (flattenHTTPSEntry
      ⟨"n", "x", "x", "https://x", 0, 1, "", "x", "x", "POST", "0", "x", "x", "x", "x",
       "x", "blank", 2⟩).lookup "name" = some (GoValue.str "n") :=
  ⟨(flattenHTTPS_prunes_empty_strings
      ⟨"n", "x", "x", "https://x", 0, 1, "", "x", "x", "POST", "0", "x", "x", "x", "x",
       "x", "blank", 2⟩).2.1.mpr rfl,
   (flattenHTTPS_prunes_empty_strings
      ⟨"n", "x", "x", "https://x", 0, 1, "", "x", "x", "POST", "0", "x", "x", "x", "x",
       "x", "blank", 2⟩).2.2.1,
   ((flattenHTTPS_prunes_empty_strings
      ⟨"n", "x", "x", "https://x", 0, 1, "", "x", "x", "POST", "0", "x", "x", "x", "x",
       "x", "blank", 2⟩).1 "name").trans (by decide)⟩

/-- C10: the pruning pass applies to the identity fields as well — a
record whose name (or url) is the empty string is flattened to a map
with no name (or url) key. -/
theorem flattenHTTPS_prunes_identity_fields (hl : HTTPS) :
    (hl.Name = "" → (flattenHTTPSEntry hl).lookup "name" = none)
    ∧ (hl.URL = "" → (flattenHTTPSEntry hl).lookup "url" = none) := by
  constructor
  · intro h
    have hbase : (flattenHTTPSBase hl).lookup "name" = some (GoValue.str hl.Name) := rfl
    simp only [flattenHTTPSEntry]
    rw [lookup_filter _ _ _ (flattenHTTPSBase_keys_nodup hl), hbase, h]
    simp
  · intro h
    have hbase : (flattenHTTPSBase hl).lookup "url" = some (GoValue.str hl.URL) := rfl
    simp only [flattenHTTPSEntry]
    rw [lookup_filter _ _ _ (flattenHTTPSBase_keys_nodup hl), hbase, h]
    simp

/-- Witness for C10 at a concrete record with empty name and url. -/
theorem flattenHTTPS_prunes_identity_fields_witness :
    (flattenHTTPSEntry
      ⟨"", "x", "x", "", 3, 1, "x", "x", "x", "POST", "0", "x", "x", "x", "x",
       "x", "blank", 2⟩).lookup "name" = none
    ∧ (flattenHTTPSEntry
      ⟨"", "x", "x", "", 3, 1, "x", "x", "x", "POST", "0", "x", "x", "x", "x",
       "x", "blank", 2⟩).lookup "url" = none :=
  ⟨(flattenHTTPS_prunes_identity_fields
      ⟨"", "x", "x", "", 3, 1, "x", "x", "x", "POST", "0", "x", "x", "x", "x",
       "x", "blank", 2⟩).1 rfl,
   (flattenHTTPS_prunes_identity_fields
      ⟨"", "x", "x", "", 3, 1, "x", "x", "x", "POST", "0", "x", "x", "x", "x",
       "x", "blank", 2⟩).2 rfl⟩

/-- C5: deleting a logging endpoint suppresses exactly an HTTP error with
status code 404 — the delete completes without error in that case — and
returns every other failure, including every other status code,
unchanged to the caller. -/
theorem deleteHTTPS_suppresses_404 (res : Option FastlyError) :
    deleteHTTPS res = if res = some (FastlyError.httpError 404) then none else res := by
  rcases res with _ | e
  · rfl
  · cases e with
    | httpError code =>
      by_cases h : code = 404
      · subst h
        simp [deleteHTTPS]
      · simp [deleteHTTPS, h]
    | missingURL => rfl
    | missingService => rfl
    | missingKey => rfl
    | otherError m => rfl

/-- Every call issued by the DELETE loop is a delete call. -/
theorem runDeletes_calls_shape (sid : String) (v : Int)
    (dr : DeleteHTTPSInput → Option FastlyError) (l : List FlatMap) :
    ∃ ds : List DeleteHTTPSInput,
      (runDeletes sid v dr l).1 = ds.map APICall.deleteCall := by
  induction l with
  | nil => exact ⟨[], rfl⟩
  | cons of rest ih =>
    obtain ⟨ds, hds⟩ := ih
    cases hb : buildDeleteHTTPS of sid v with
    | none => exact ⟨[], by simp [runDeletes, hb]⟩
    | some opts =>
      cases hd : deleteHTTPS (dr opts) with
      | some e => exact ⟨[opts], by simp [runDeletes, hb, hd]⟩
      | none => exact ⟨opts :: ds, by simp [runDeletes, hb, hd, hds]⟩

/-- Every call issued by the POST loop is a create call. -/
theorem runCreates_calls_shape (sid : String) (v : Int)
    (cr : CreateHTTPSInput → Option FastlyError) (l : List FlatMap) :
    ∃ cs : List CreateHTTPSInput,
      (runCreates sid v cr l).1 = cs.map APICall.createCall := by
  induction l with
  | nil => exact ⟨[], rfl⟩
  | cons nf rest ih =>
    obtain ⟨cs, hcs⟩ := ih
    cases hb : buildCreateHTTPS nf sid v with
    | none => exact ⟨[], by simp [runCreates, hb]⟩
    | some opts =>
      cases hc : createHTTPS (cr opts) with
      | some e => exact ⟨[opts], by simp [runCreates, hb, hc]⟩
      | none => exact ⟨opts :: cs, by simp [runCreates, hb, hc, hcs]⟩

/-- C4: in every reconciler invocation, the issued call sequence is a
block of delete calls followed by a block of create calls — no create is
issued before the removals are done, and no call is ever an in-place
update. In particular a pure rename is one delete followed by one
create. -/
theorem processHTTPS_deletes_before_creates :
    (∀ (sid : String) (v : Int) (oh nh : Option (List FlatMap))
        (dr : DeleteHTTPSInput → Option FastlyError)
        (cr : CreateHTTPSInput → Option FastlyError),
      ∃ (ds : List DeleteHTTPSInput) (cs : List CreateHTTPSInput),
        (processHTTPS sid v oh nh dr cr).1
          = ds.map APICall.deleteCall ++ cs.map APICall.createCall)
    ∧ processHTTPS "svc" 1 (some [exampleEntry "a" "https://x.example.com"])
        (some [exampleEntry "b" "https://x.example.com"]) (fun _ => none) (fun _ => none)
      = ([APICall.deleteCall { Service := "svc", Version := 1, Name := "a" },
          APICall.createCall (exampleCreateOpts "b" "https://x.example.com")],
         RunOutcome.ok) := by
  constructor
  · intro sid v oh nh dr cr
    obtain ⟨ds, hds⟩ := runDeletes_calls_shape sid v dr (removeHTTPSLogging oh nh)
    obtain ⟨cs, hcs⟩ := runCreates_calls_shape sid v cr (addHTTPSLogging oh nh)
    cases hr : runDeletes sid v dr (removeHTTPSLogging oh nh) with
    | mk dcalls out =>
      rw [hr] at hds
      simp only [] at hds
      cases hc : runCreates sid v cr (addHTTPSLogging oh nh) with
      | mk ccalls out2 =>
        rw [hc] at hcs
        simp only [] at hcs
        cases out with
        | ok => exact ⟨ds, cs, by simp [processHTTPS, hr, hc, hds, hcs]⟩
        | apiError e => exact ⟨ds, [], by simp [processHTTPS, hr, hds]⟩
        | panicked => exact ⟨ds, [], by simp [processHTTPS, hr, hds]⟩
  · decide

/-- C3: the removal list of the reconciler is the old set minus the new set
and its addition list the new set minus the old set, by whole-entry
equality; on old equal to A and B and new equal to B and C with
all-successful calls, exactly A is deleted and exactly C is created,
and the common entry B appears in no call. -/
theorem processHTTPS_set_difference :
    (∀ (oldSet newSet : List FlatMap) (x : FlatMap),
        x ∈ goSetDifference oldSet newSet ↔ x ∈ oldSet ∧ x ∉ newSet)
    ∧ processHTTPS "svc" 1
        (some [exampleEntry "A" "https://a.example.com",
               exampleEntry "B" "https://b.example.com"])
        (some [exampleEntry "B" "https://b.example.com",
               exampleEntry "C" "https://c.example.com"])
        (fun _ => none) (fun _ => none)
      = ([APICall.deleteCall { Service := "svc", Version := 1, Name := "A" },
          APICall.createCall (exampleCreateOpts "C" "https://c.example.com")],
         RunOutcome.ok) := by
  constructor
  · intro oldSet newSet x
    simp [goSetDifference, List.mem_filter]
  · decide

/-- A successful DELETE loop built a delete input for every entry of its
list, every underlying call succeeded (or returned a suppressed 404), and
the calls issued are exactly those deletes in order. -/
theorem runDeletes_ok_shape (sid : String) (v : Int)
    (dr : DeleteHTTPSInput → Option FastlyError) :
    ∀ (l : List FlatMap) (calls : List APICall),
      runDeletes sid v dr l = (calls, RunOutcome.ok) →
      ∃ dOpts : List DeleteHTTPSInput,
        List.Forall₂
          (fun m o => buildDeleteHTTPS m sid v = some o ∧ deleteHTTPS (dr o) = none) l dOpts
        ∧ calls = dOpts.map APICall.deleteCall := by
  intro l
  induction l with
  | nil =>
    intro calls h
    simp [runDeletes] at h
    exact ⟨[], List.Forall₂.nil, by simp [h]⟩
  | cons of rest ih =>
    intro calls h
    cases hb : buildDeleteHTTPS of sid v with
    | none => simp [runDeletes, hb] at h
    | some opts =>
      cases hd : deleteHTTPS (dr opts) with
      | some e => simp [runDeletes, hb, hd] at h
      | none =>
        cases hrest : runDeletes sid v dr rest with
        | mk rcalls rout =>
          simp [runDeletes, hb, hd, hrest] at h
          obtain ⟨hcalls, hout⟩ := h
          subst hout
          obtain ⟨dOpts, hall, hmap⟩ := ih rcalls hrest
          exact ⟨opts :: dOpts, List.Forall₂.cons ⟨hb, hd⟩ hall, by simp [← hcalls, hmap]⟩

/-- A DELETE loop that ends in an API error split its list into a fully
processed prefix, the failing entry, and an untouched suffix: the calls
issued are the successful deletes of the prefix followed by the failing
delete, and nothing else. -/
theorem runDeletes_error_shape (sid : String) (v : Int)
    (dr : DeleteHTTPSInput → Option FastlyError) :
    ∀ (l : List FlatMap) (calls : List APICall) (e : FastlyError),
      runDeletes sid v dr l = (calls, RunOutcome.apiError e) →
      ∃ (pre : List FlatMap) (x : FlatMap) (post : List FlatMap)
        (preOpts : List DeleteHTTPSInput) (opts : DeleteHTTPSInput),
        l = pre ++ x :: post
        ∧ List.Forall₂
            (fun m o => buildDeleteHTTPS m sid v = some o ∧ deleteHTTPS (dr o) = none)
            pre preOpts
        ∧ buildDeleteHTTPS x sid v = some opts
        ∧ deleteHTTPS (dr opts) = some e
        ∧ calls = preOpts.map APICall.deleteCall ++ [APICall.deleteCall opts] := by
  intro l
  induction l with
  | nil =>
    intro calls e h
    simp [runDeletes] at h
  | cons of rest ih =>
    intro calls e h
    cases hb : buildDeleteHTTPS of sid v with
    | none => simp [runDeletes, hb] at h
    | some opts =>
      cases hd : deleteHTTPS (dr opts) with
      | some e0 =>
        simp [runDeletes, hb, hd] at h
        obtain ⟨hcalls, hout⟩ := h
        subst hout
        exact ⟨[], of, rest, [], opts, rfl, List.Forall₂.nil, hb, hd, by simp [← hcalls]⟩
      | none =>
        cases hrest : runDeletes sid v dr rest with
        | mk rcalls rout =>
          simp [runDeletes, hb, hd, hrest] at h
          obtain ⟨hcalls, hout⟩ := h
          subst hout
          obtain ⟨pre, x, post, preOpts, opts2, hsplit, hall, hbx, hdx, hmap⟩ :=
            ih rcalls e hrest
          exact ⟨of :: pre, x, post, opts :: preOpts, opts2, by simp [hsplit],
            List.Forall₂.cons ⟨hb, hd⟩ hall, hbx, hdx, by simp [← hcalls, hmap]⟩

/-- A POST loop that ends in an API error split its list into a fully
processed prefix, the failing entry, and an untouched suffix: the calls
issued are the successful creates of the prefix followed by the failing
create, and nothing else. -/
theorem runCreates_error_shape (sid : String) (v : Int)
    (cr : CreateHTTPSInput → Option FastlyError) :
    ∀ (l : List FlatMap) (calls : List APICall) (e : FastlyError),
      runCreates sid v cr l = (calls, RunOutcome.apiError e) →
      ∃ (pre : List FlatMap) (x : FlatMap) (post : List FlatMap)
        (preOpts : List CreateHTTPSInput) (opts : CreateHTTPSInput),
        l = pre ++ x :: post
        ∧ List.Forall₂
            (fun m o => buildCreateHTTPS m sid v = some o ∧ createHTTPS (cr o) = none)
            pre preOpts
        ∧ buildCreateHTTPS x sid v = some opts
        ∧ createHTTPS (cr opts) = some e
        ∧ calls = preOpts.map APICall.createCall ++ [APICall.createCall opts] := by
  intro l
  induction l with
  | nil =>
    intro calls e h
    simp [runCreates] at h
  | cons nf rest ih =>
    intro calls e h
    cases hb : buildCreateHTTPS nf sid v with
    | none => simp [runCreates, hb] at h
    | some opts =>
      cases hc : createHTTPS (cr opts) with
      | some e0 =>
        simp [runCreates, hb, hc] at h
        obtain ⟨hcalls, hout⟩ := h
        subst hout
        exact ⟨[], nf, rest, [], opts, rfl, List.Forall₂.nil, hb, hc, by simp [← hcalls]⟩
      | none =>
        cases hrest : runCreates sid v cr rest with
        | mk rcalls rout =>
          simp [runCreates, hb, hc, hrest] at h
          obtain ⟨hcalls, hout⟩ := h
          subst hout
          obtain ⟨pre, x, post, preOpts, opts2, hsplit, hall, hbx, hcx, hmap⟩ :=
            ih rcalls e hrest
          exact ⟨nf :: pre, x, post, opts :: preOpts, opts2, by simp [hsplit],
            List.Forall₂.cons ⟨hb, hc⟩ hall, hbx, hcx, by simp [← hcalls, hmap]⟩

/-- The failure semantics the spec states for one reconciler invocation
that ends in an API error: either some removal failed — the removals
before it were fully applied, its own delete was issued last, and no
later removal and no addition was attempted — or all removals succeeded
and some addition failed the same way. Nothing is rolled back: the calls
already issued remain exactly the calls of the run. -/
def FirstErrorAbort (sid : String) (v : Int)
    (dr : DeleteHTTPSInput → Option FastlyError)
    (cr : CreateHTTPSInput → Option FastlyError)
    (removeList addList : List FlatMap) (calls : List APICall) (e : FastlyError) : Prop :=
  (∃ (pre : List FlatMap) (x : FlatMap) (post : List FlatMap)
      (preOpts : List DeleteHTTPSInput) (opts : DeleteHTTPSInput),
    removeList = pre ++ x :: post
    ∧ List.Forall₂
        (fun m o => buildDeleteHTTPS m sid v = some o ∧ deleteHTTPS (dr o) = none)
        pre preOpts
    ∧ buildDeleteHTTPS x sid v = some opts
    ∧ deleteHTTPS (dr opts) = some e
    ∧ calls = preOpts.map APICall.deleteCall ++ [APICall.deleteCall opts])
  ∨ (∃ (dOpts : List DeleteHTTPSInput) (pre : List FlatMap) (x : FlatMap)
      (post : List FlatMap) (preOpts : List CreateHTTPSInput) (opts : CreateHTTPSInput),
    List.Forall₂
        (fun m o => buildDeleteHTTPS m sid v = some o ∧ deleteHTTPS (dr o) = none)
        removeList dOpts
    ∧ addList = pre ++ x :: post
    ∧ List.Forall₂
        (fun m o => buildCreateHTTPS m sid v = some o ∧ createHTTPS (cr o) = none)
        pre preOpts
    ∧ buildCreateHTTPS x sid v = some opts
    ∧ createHTTPS (cr opts) = some e
    ∧ calls = dOpts.map APICall.deleteCall ++ preOpts.map APICall.createCall
        ++ [APICall.createCall opts])

/-- C7: a reconciler invocation that ends in an API error stopped at the
first failing call: the entries after the failing one were not attempted,
and the calls already issued before it are exactly the calls of the run —
nothing is undone. -/
theorem processHTTPS_aborts_on_first_error (sid : String) (v : Int)
    (oh nh : Option (List FlatMap))
    (dr : DeleteHTTPSInput → Option FastlyError)
    (cr : CreateHTTPSInput → Option FastlyError) (e : FastlyError)
    (h : (processHTTPS sid v oh nh dr cr).2 = RunOutcome.apiError e) :
    FirstErrorAbort sid v dr cr (removeHTTPSLogging oh nh) (addHTTPSLogging oh nh)
      (processHTTPS sid v oh nh dr cr).1 e := by
  cases hr : runDeletes sid v dr (removeHTTPSLogging oh nh) with
  | mk dcalls out =>
    cases out with
    | ok =>
      cases hc : runCreates sid v cr (addHTTPSLogging oh nh) with
      | mk ccalls out2 =>
        have hp : processHTTPS sid v oh nh dr cr = (dcalls ++ ccalls, out2) := by
          simp [processHTTPS, hr, hc]
        rw [hp] at h
        have h2 : out2 = RunOutcome.apiError e := h
        subst h2
        obtain ⟨dOpts, hall, hmap⟩ := runDeletes_ok_shape sid v dr _ dcalls hr
        obtain ⟨pre, x, post, preOpts, opts, hsplit, hall2, hbx, hcx, hmap2⟩ :=
          runCreates_error_shape sid v cr _ ccalls e hc
        right
        refine ⟨dOpts, pre, x, post, preOpts, opts, hall, hsplit, hall2, hbx, hcx, ?_⟩
        rw [hp]
        simp [hmap, hmap2]
    | apiError e0 =>
      have hp : processHTTPS sid v oh nh dr cr = (dcalls, RunOutcome.apiError e0) := by
        simp [processHTTPS, hr]
      rw [hp] at h
      have h2 : RunOutcome.apiError e0 = RunOutcome.apiError e := h
      injection h2 with h3
      subst h3
      obtain ⟨pre, x, post, preOpts, opts, hsplit, hall, hbx, hdx, hmap⟩ :=
        runDeletes_error_shape sid v dr _ dcalls e0 hr
      left
      refine ⟨pre, x, post, preOpts, opts, hsplit, hall, hbx, hdx, ?_⟩
      rw [hp]
      exact hmap
    | panicked =>
      have hp : processHTTPS sid v oh nh dr cr = (dcalls, RunOutcome.panicked) := by
        simp [processHTTPS, hr]
      rw [hp] at h
      simp at h

/-- A delete oracle that fails with a 500 on the endpoint named b and
succeeds elsewhere, used to instantiate the abort theorem. -/
def exampleDelRes : DeleteHTTPSInput → Option FastlyError :=
  fun o => if o.Name = "b" then some (FastlyError.httpError 500) else none

/-- Witness for C7 at a concrete failing run: removing entries a and b
where the delete of b fails with a 500. -/
theorem processHTTPS_aborts_on_first_error_witness :
    FirstErrorAbort "svc" 1 exampleDelRes (fun _ => none)
      (removeHTTPSLogging
        (some [exampleEntry "a" "https://x.example.com",
               exampleEntry "b" "https://x.example.com"]) (some []))
      (addHTTPSLogging
        (some [exampleEntry "a" "https://x.example.com",
               exampleEntry "b" "https://x.example.com"]) (some []))
      (processHTTPS "svc" 1
        (some [exampleEntry "a" "https://x.example.com",
               exampleEntry "b" "https://x.example.com"]) (some [])
        exampleDelRes (fun _ => none)).1
      (FastlyError.httpError 500) :=
  processHTTPS_aborts_on_first_error "svc" 1
    (some [exampleEntry "a" "https://x.example.com",
           exampleEntry "b" "https://x.example.com"]) (some [])
    exampleDelRes (fun _ => none) (FastlyError.httpError 500) (by decide)

/-- The string type assertion succeeds exactly on a string-typed entry. -/
theorem getString_eq_some (m : FlatMap) (k s : String) :
    getString m k = some s ↔ m.lookup k = some (GoValue.str s) := by
  unfold getString
  cases h : m.lookup k with
  | none => simp
  | some v => cases v <;> simp

/-- The int type assertion succeeds exactly on an int-typed entry. -/
theorem getInt_eq_some (m : FlatMap) (k : String) (n : Int) :
    getInt m k = some n ↔ m.lookup k = some (GoValue.int n) := by
  unfold getInt
  cases h : m.lookup k with
  | none => simp
  | some v => cases v <;> simp

/-- The configuration map holds the key with a string-typed value. -/
def HasStr (m : FlatMap) (k : String) : Prop :=
  ∃ s, m.lookup k = some (GoValue.str s)

/-- The configuration map holds the key with an int-typed value. -/
def HasInt (m : FlatMap) (k : String) : Prop :=
  ∃ n, m.lookup k = some (GoValue.int n)

/-- A configuration map containing every key buildCreateHTTPS reads, each
with exactly the dynamic type its type assertion expects. -/
def WellTypedCreateMap (m : FlatMap) : Prop :=
  HasStr m "name" ∧ HasStr m "url" ∧ HasInt m "request_max_entries"
  ∧ HasInt m "request_max_bytes" ∧ HasStr m "content_type" ∧ HasStr m "header_name"
  ∧ HasStr m "header_value" ∧ HasStr m "method" ∧ HasStr m "json_format"
  ∧ HasStr m "tls_ca_cert" ∧ HasStr m "tls_client_cert" ∧ HasStr m "tls_client_key"
  ∧ HasStr m "tls_hostname" ∧ HasStr m "format" ∧ HasInt m "format_version"
  ∧ HasStr m "message_type" ∧ HasStr m "placement" ∧ HasStr m "response_condition"

/-- C9: building a create input is defined exactly on maps that hold
every expected key with exactly the expected dynamic type — on any other
map a type assertion panics at runtime — and building a delete input is
defined exactly when the name key holds a string. -/
theorem build_inputs_defined_iff_well_typed (m : FlatMap) (sid : String) (v : Int) :
    ((buildCreateHTTPS m sid v).isSome = true ↔ WellTypedCreateMap m)
    ∧ ((buildDeleteHTTPS m sid v).isSome = true ↔ HasStr m "name") := by
  constructor
  · constructor
    · intro h
      unfold buildCreateHTTPS at h
      repeat (split at h <;> try simp at h)
      simp only [WellTypedCreateMap, HasStr, HasInt]
      simp only [getString_eq_some, getInt_eq_some] at *
      refine ⟨⟨_, by assumption⟩, ⟨_, by assumption⟩, ⟨_, by assumption⟩,
        ⟨_, by assumption⟩, ⟨_, by assumption⟩, ⟨_, by assumption⟩, ⟨_, by assumption⟩,
        ⟨_, by assumption⟩, ⟨_, by assumption⟩, ⟨_, by assumption⟩, ⟨_, by assumption⟩,
        ⟨_, by assumption⟩, ⟨_, by assumption⟩, ⟨_, by assumption⟩, ⟨_, by assumption⟩,
        ⟨_, by assumption⟩, ⟨_, by assumption⟩, ⟨_, by assumption⟩⟩
    · intro hw
      obtain ⟨⟨s1, e1⟩, ⟨s2, e2⟩, ⟨n3, e3⟩, ⟨n4, e4⟩, ⟨s5, e5⟩, ⟨s6, e6⟩, ⟨s7, e7⟩,
        ⟨s8, e8⟩, ⟨s9, e9⟩, ⟨s10, e10⟩, ⟨s11, e11⟩, ⟨s12, e12⟩, ⟨s13, e13⟩, ⟨s14, e14⟩,
        ⟨n15, e15⟩, ⟨s16, e16⟩, ⟨s17, e17⟩, ⟨s18, e18⟩⟩ := hw
      have g1 := (getString_eq_some m "name" s1).mpr e1
      have g2 := (getString_eq_some m "url" s2).mpr e2
      have g3 := (getInt_eq_some m "request_max_entries" n3).mpr e3
      have g4 := (getInt_eq_some m "request_max_bytes" n4).mpr e4
      have g5 := (getString_eq_some m "content_type" s5).mpr e5
      have g6 := (getString_eq_some m "header_name" s6).mpr e6
      have g7 := (getString_eq_some m "header_value" s7).mpr e7
      have g8 := (getString_eq_some m "method" s8).mpr e8
      have g9 := (getString_eq_some m "json_format" s9).mpr e9
      have g10 := (getString_eq_some m "tls_ca_cert" s10).mpr e10
      have g11 := (getString_eq_some m "tls_client_cert" s11).mpr e11
      have g12 := (getString_eq_some m "tls_client_key" s12).mpr e12
      have g13 := (getString_eq_some m "tls_hostname" s13).mpr e13
      have g14 := (getString_eq_some m "format" s14).mpr e14
      have g15 := (getInt_eq_some m "format_version" n15).mpr e15
      have g16 := (getString_eq_some m "message_type" s16).mpr e16
      have g17 := (getString_eq_some m "placement" s17).mpr e17
      have g18 := (getString_eq_some m "response_condition" s18).mpr e18
      simp [buildCreateHTTPS, g1, g2, g3, g4, g5, g6, g7, g8, g9, g10, g11, g12, g13,
        g14, g15, g16, g17, g18]
  · constructor
    · intro h
      unfold buildDeleteHTTPS at h
      split at h
      · simp at h
      · simp only [HasStr]
        simp only [getString_eq_some] at *
        exact ⟨_, by assumption⟩
    · intro hw
      obtain ⟨s1, e1⟩ := hw
      have g1 := (getString_eq_some m "name" s1).mpr e1
      simp [buildDeleteHTTPS, g1]

/-- The property the spec states for one built create input: every field
of the configuration map is passed through verbatim into the create
input, except the numeric fields, which are converted from the
signed int representation of the configuration to the unsigned representation
of the API, and the service and version scope is filled in. -/
def FieldsVerbatim (m : FlatMap) (sid : String) (v : Int) (r : CreateHTTPSInput) : Prop :=
  r.Service = sid ∧ r.Version = v
  ∧ m.lookup "name" = some (GoValue.str r.Name)
  ∧ m.lookup "url" = some (GoValue.str r.URL)
  ∧ (∃ n, m.lookup "request_max_entries" = some (GoValue.int n)
      ∧ r.RequestMaxEntries = goUint n)
  ∧ (∃ n, m.lookup "request_max_bytes" = some (GoValue.int n)
      ∧ r.RequestMaxBytes = goUint n)
  ∧ m.lookup "content_type" = some (GoValue.str r.ContentType)
  ∧ m.lookup "header_name" = some (GoValue.str r.HeaderName)
  ∧ m.lookup "header_value" = some (GoValue.str r.HeaderValue)
  ∧ m.lookup "method" = some (GoValue.str r.Method)
  ∧ m.lookup "json_format" = some (GoValue.str r.JSONFormat)
  ∧ m.lookup "tls_ca_cert" = some (GoValue.str r.TLSCACert)
  ∧ m.lookup "tls_client_cert" = some (GoValue.str r.TLSClientCert)
  ∧ m.lookup "tls_client_key" = some (GoValue.str r.TLSClientKey)
  ∧ m.lookup "tls_hostname" = some (GoValue.str r.TLSHostname)
  ∧ m.lookup "format" = some (GoValue.str r.Format)
  ∧ (∃ n, m.lookup "format_version" = some (GoValue.int n) ∧ r.FormatVersion = goUint n)
  ∧ m.lookup "message_type" = some (GoValue.str r.MessageType)
  ∧ m.lookup "placement" = some (GoValue.str r.Placement)
  ∧ m.lookup "response_condition" = some (GoValue.str r.ResponseCondition)

/-- C8: every create input actually built passes the configuration
fields through verbatim, converting exactly the three numeric fields to
the unsigned representation of the API. -/
theorem buildCreateHTTPS_fields_verbatim (m : FlatMap) (sid : String) (v : Int)
    (r : CreateHTTPSInput) (h : buildCreateHTTPS m sid v = some r) :
    FieldsVerbatim m sid v r := by
  unfold buildCreateHTTPS at h
  repeat (split at h <;> try simp at h)
  subst h
  simp only [FieldsVerbatim]
  simp only [getString_eq_some, getInt_eq_some] at *
  refine ⟨trivial, trivial, by assumption, by assumption, ⟨_, by assumption, rfl⟩,
    ⟨_, by assumption, rfl⟩, by assumption, by assumption, by assumption, by assumption,
    by assumption, by assumption, by assumption, by assumption, by assumption,
    by assumption, ⟨_, by assumption, rfl⟩, by assumption, by assumption, by assumption⟩

/-- Witness for C8 at a concrete well-typed configuration map. -/
theorem buildCreateHTTPS_fields_verbatim_witness :
    FieldsVerbatim (exampleEntry "w" "https://w.example.com") "svc" 1
      (exampleCreateOpts "w" "https://w.example.com") :=
  buildCreateHTTPS_fields_verbatim (exampleEntry "w" "https://w.example.com") "svc" 1
    (exampleCreateOpts "w" "https://w.example.com") (by decide)
